import Mathlib

/-!
# Verification of the dta4hana request signer and deletion pipeline

Shallow embedding of the Rust sources `src/twitter_client.rs`,
`src/dta_app.rs` and `src/twitter_object.rs`.

Strings are modelled at the byte level where encoding matters: a byte is a
`Nat` below 256, and `strBytes` views a `String` as the list of its
character code points (the sources only ever encode ASCII data — dates,
base64 text and URL text — where code points and UTF-8 bytes coincide).
-/

set_option maxRecDepth 8000

/-! ## The percent encoder used by the signer

Every encoding step in `twitter_client.rs` calls
`url::form_urlencoded::byte_serialize` (external `url` crate).  Its
behaviour, embedded here byte for byte: a space becomes `+`; the bytes
`*`, `-`, `.`, `_`, `0-9`, `A-Z`, `a-z` pass through unchanged; every
other byte becomes `%XY` with uppercase hexadecimal digits. -/

/-- The bytes `url::form_urlencoded::byte_serialize` leaves unchanged:
`*`, `-`, `.`, `_`, ASCII digits and ASCII letters. -/
def byteSerializedUnchanged (b : Nat) : Bool :=
  b == 42 || b == 45 || b == 46 || b == 95 ||
    (48 ≤ b && b ≤ 57) || (65 ≤ b && b ≤ 90) || (97 ≤ b && b ≤ 122)

/-- Uppercase hexadecimal digit for a value below 16. -/
def hexUpper (n : Nat) : Char :=
  if n < 10 then Char.ofNat (48 + n) else Char.ofNat (55 + n)

/-- Encoding of one byte by `url::form_urlencoded::byte_serialize`. -/
def encodeByte (b : Nat) : List Char :=
  if b == 32 then ['+']
  else if byteSerializedUnchanged b then [Char.ofNat b]
  else ['%', hexUpper (b / 16), hexUpper (b % 16)]

/-- `url::form_urlencoded::byte_serialize` over a byte sequence. -/
def byteSerializeChars : List Nat → List Char
  | [] => []
  | b :: rest => encodeByte b ++ byteSerializeChars rest

/-- Value of a hexadecimal digit character (`0-9`, `A-F`, `a-f`). -/
def hexVal (c : Char) : Nat :=
  if 48 ≤ c.toNat ∧ c.toNat ≤ 57 then c.toNat - 48
  else if 65 ≤ c.toNat ∧ c.toNat ≤ 70 then c.toNat - 55
  else if 97 ≤ c.toNat ∧ c.toNat ≤ 102 then c.toNat - 87
  else 0

/-- The matching form-urlencoding decoder: `+` is a space, `%XY` is the
byte with hexadecimal value `XY`, anything else is its own code point.
(A `%` not followed by two characters never occurs in encoder output.) -/
def formUrlDecode : List Char → List Nat
  | [] => []
  | '+' :: rest => 32 :: formUrlDecode rest
  | '%' :: h :: l :: rest => (16 * hexVal h + hexVal l) :: formUrlDecode rest
  | '%' :: rest => rest.map Char.toNat
  | c :: rest => c.toNat :: formUrlDecode rest

/-- Byte view of a string: the code points of its characters (equal to the
UTF-8 bytes on the ASCII data the signer encodes). -/
def strBytes (s : String) : List Nat := s.data.map Char.toNat

/-- String-to-string form of the encoder, as the source's
`url::form_urlencoded::byte_serialize(s.as_bytes()).collect::<String>()`. -/
def encodeStr (s : String) : String := ⟨byteSerializeChars (strBytes s)⟩

/-! ### Round-trip lemmas for the encoder -/

lemma hexVal_hexUpper {n : Nat} (h : n < 16) : hexVal (hexUpper n) = n := by
  revert n h
  decide

lemma char_facts {b : Nat} (hb : b < 256) (hu : byteSerializedUnchanged b = true) :
    (Char.ofNat b).toNat = b ∧ Char.ofNat b ≠ '+' ∧ Char.ofNat b ≠ '%' := by
  revert b
  decide

lemma decode_encodeByte (b : Nat) (hb : b < 256) (cs : List Char) :
    formUrlDecode (encodeByte b ++ cs) = b :: formUrlDecode cs := by
  by_cases h32 : b = 32
  · subst h32
    simp [encodeByte, formUrlDecode]
  · by_cases hu : byteSerializedUnchanged b = true
    · obtain ⟨htn, hplus, hpct⟩ := char_facts hb hu
      have : encodeByte b = [Char.ofNat b] := by
        simp [encodeByte, h32, hu]
      rw [this]
      rw [List.singleton_append]
      rw [formUrlDecode.eq_def]
      split
      · simp_all
      · simp_all
      · simp_all
      · simp_all
      · simp_all
    · have henc : encodeByte b = ['%', hexUpper (b / 16), hexUpper (b % 16)] := by
        simp [encodeByte, h32, hu]
      rw [henc]
      show formUrlDecode ('%' :: hexUpper (b / 16) :: hexUpper (b % 16) :: cs)
          = b :: formUrlDecode cs
      rw [formUrlDecode]
      have hdiv : b / 16 < 16 := by omega
      have hmod : b % 16 < 16 := by omega
      rw [hexVal_hexUpper hdiv, hexVal_hexUpper hmod]
      congr 1
      omega

/-- **C1 (counterexample).** The tilde `~` (byte 126) is an unreserved
character, yet the encoder applied by the signer does not leave it
unchanged: it produces `%7E`.  (Moreover `*`, byte 42, is a reserved
character yet passes through unencoded.) -/
theorem c1_unreserved_tilde_counterexample :
    byteSerializeChars [126] = ['%', '7', 'E'] ∧ byteSerializeChars [126] ≠ ['~'] ∧
      byteSerializeChars [42] = ['*'] := by
  refine ⟨by decide, by decide, by decide⟩

/-- **C1 (amended).** The encoding the signer applies to every parameter
value is `url::form_urlencoded::byte_serialize`: a space becomes `+` (the
form-encoding equivalent of `%20`); exactly the bytes `*`, `-`, `.`, `_`,
ALPHA and DIGIT pass through unchanged (so `~` is percent-encoded and `*`
is not, unlike RFC 3986 percent-encoding); every other byte, reserved
characters included, becomes `%XY` in uppercase hexadecimal.  Decoding an
encoded value yields the original byte sequence. -/
theorem c1_percent_encoding :
    (∀ bs : List Nat, (∀ b ∈ bs, b < 256) →
        formUrlDecode (byteSerializeChars bs) = bs) ∧
      byteSerializeChars [32] = ['+'] ∧
      (∀ b : Nat, b < 256 → byteSerializedUnchanged b = true →
        encodeByte b = [Char.ofNat b]) ∧
      (∀ b : Nat, b < 256 → b ≠ 32 → byteSerializedUnchanged b = false →
        encodeByte b = ['%', hexUpper (b / 16), hexUpper (b % 16)]) := by
  refine ⟨?_, by decide, ?_, ?_⟩
  · intro bs h
    induction bs with
    | nil => rfl
    | cons b rest ih =>
      have hb : b < 256 := h b (List.mem_cons_self b rest)
      have hrest : ∀ x ∈ rest, x < 256 := fun x hx => h x (List.mem_cons_of_mem b hx)
      show formUrlDecode (encodeByte b ++ byteSerializeChars rest) = b :: rest
      rw [decode_encodeByte b hb, ih hrest]
  · intro b hb hu
    have h32 : b ≠ 32 := by
      intro h
      subst h
      exact absurd hu (by decide)
    simp [encodeByte, h32, hu]
  · intro b hb h32 hu
    simp [encodeByte, h32, hu]

/-- **C1 (witness).** Round trip evaluated on the concrete byte sequence
`h~ :` (bytes 104, 126, 32, 58) and the pass-through cases on bytes 97 and
63. -/
theorem c1_percent_encoding_witness :
    formUrlDecode (byteSerializeChars [104, 126, 32, 58]) = [104, 126, 32, 58] ∧
      encodeByte 97 = [Char.ofNat 97] ∧
      encodeByte 63 = ['%', hexUpper (63 / 16), hexUpper (63 % 16)] :=
  ⟨c1_percent_encoding.1 [104, 126, 32, 58] (by decide),
    c1_percent_encoding.2.2.1 97 (by decide) (by decide),
    c1_percent_encoding.2.2.2 63 (by decide) (by decide) (by decide)⟩

/-! ## Byte-lexicographic comparison

The spec's §4.1 step 3 orders parameter keys by byte/lexicographic order.
We compare strings through their byte views. -/

/-- Strict byte-lexicographic comparison of byte sequences. -/
def bytesLtb : List Nat → List Nat → Bool
  | [], [] => false
  | [], _ :: _ => true
  | _ :: _, [] => false
  | a :: as, b :: bs => if a < b then true else if b < a then false else bytesLtb as bs

lemma bytesLtb_nil_right : ∀ as, bytesLtb as [] = false
  | [] => rfl
  | _ :: _ => rfl

lemma bytesLtb_asymm : ∀ as bs, bytesLtb as bs = true → bytesLtb bs as = false
  | [], [] => by simp [bytesLtb]
  | [], _ :: _ => by simp [bytesLtb, bytesLtb_nil_right]
  | _ :: _, [] => by simp [bytesLtb, bytesLtb_nil_right]
  | a :: as, b :: bs => by
    simp only [bytesLtb]
    by_cases hab : a < b <;> by_cases hba : b < a <;>
      simp [hab, hba] <;> first | omega | exact bytesLtb_asymm as bs

lemma bytesLtb_conn : ∀ as bs, bytesLtb as bs = false → bytesLtb bs as = false → as = bs
  | [], [] => by simp
  | [], _ :: _ => by simp [bytesLtb]
  | _ :: _, [] => by simp [bytesLtb]
  | a :: as, b :: bs => by
    simp only [bytesLtb]
    intro h1 h2
    by_cases hab : a < b
    · simp [hab] at h1
    · by_cases hba : b < a
      · simp [hab, hba] at h2
      · simp [hab, hba] at h1 h2
        have : a = b := by omega
        simp [this, bytesLtb_conn as bs h1 h2]

lemma bytesLtb_trans : ∀ as bs cs,
    bytesLtb as bs = true → bytesLtb bs cs = true → bytesLtb as cs = true
  | as, bs, [] => by simp [bytesLtb_nil_right]
  | as, [], _ :: _ => by simp [bytesLtb_nil_right]
  | [], _ :: _, _ :: _ => by simp [bytesLtb]
  | a :: as, b :: bs, c :: cs => by
    simp only [bytesLtb]
    by_cases hab : a < b <;> by_cases hba : b < a <;>
      by_cases hbc : b < c <;> by_cases hcb : c < b <;>
      by_cases hac : a < c <;> by_cases hca : c < a <;>
      simp [hab, hba, hbc, hcb, hac, hca] <;>
      first | omega | (exact fun h1 h2 => bytesLtb_trans as bs cs h1 h2)

lemma bytesLtb_irrefl : ∀ as, bytesLtb as as = false
  | [] => rfl
  | _ :: as => by simp [bytesLtb, bytesLtb_irrefl as]

/-- Byte/lexicographic strict order on strings (the key order of §4.1). -/
def keyLt (a b : String) : Prop := bytesLtb (strBytes a) (strBytes b) = true

instance keyLt.decRel : DecidableRel keyLt := by
  unfold keyLt
  infer_instance

instance keyLt.isTrans : IsTrans String keyLt :=
  ⟨fun _ _ _ h1 h2 => bytesLtb_trans _ _ _ h1 h2⟩

lemma strBytes_inj {s t : String} (h : strBytes s = strBytes t) : s = t := by
  apply String.ext
  have inj : Function.Injective Char.toNat := fun a b hab => by
    have := congrArg Char.ofNat hab
    rwa [Char.ofNat_toNat, Char.ofNat_toNat] at this
  exact List.map_injective_iff.mpr inj h

/-- Comparison the spec's sort uses on parameter pairs: strictly smaller
key, or equal key and byte-wise not-larger value (ties broken by value). -/
def pairLe (a b : String × String) : Bool :=
  bytesLtb (strBytes a.1) (strBytes b.1) ||
    (strBytes a.1 == strBytes b.1 && !(bytesLtb (strBytes b.2) (strBytes a.2)))

lemma pairLe_total : ∀ a b : String × String, (pairLe a b || pairLe b a) = true := by
  intro a b
  simp only [pairLe, Bool.or_eq_true, Bool.and_eq_true, beq_iff_eq, Bool.not_eq_true']
  rcases h1 : bytesLtb (strBytes a.1) (strBytes b.1) <;>
    rcases h2 : bytesLtb (strBytes b.1) (strBytes a.1) <;> simp_all
  have hk : strBytes a.1 = strBytes b.1 := bytesLtb_conn _ _ h1 h2
  rcases hv : bytesLtb (strBytes b.2) (strBytes a.2) <;> simp_all
  exact bytesLtb_asymm _ _ hv

lemma pairLe_trans : ∀ a b c : String × String,
    pairLe a b = true → pairLe b c = true → pairLe a c = true := by
  intro a b c hab hbc
  simp only [pairLe, Bool.or_eq_true, Bool.and_eq_true, beq_iff_eq,
    Bool.not_eq_true'] at hab hbc ⊢
  rcases hab with hab | ⟨habk, habv⟩ <;> rcases hbc with hbc | ⟨hbck, hbcv⟩
  · exact Or.inl (bytesLtb_trans _ _ _ hab hbc)
  · exact Or.inl (hbck ▸ hab)
  · exact Or.inl (habk ▸ hbc)
  · refine Or.inr ⟨habk.trans hbck, ?_⟩
    rcases hv : bytesLtb (strBytes c.2) (strBytes a.2)
    · rfl
    · exfalso
      rcases hv3 : bytesLtb (strBytes b.2) (strBytes c.2)
      · have hbc2 : strBytes b.2 = strBytes c.2 := bytesLtb_conn _ _ hv3 hbcv
        rw [hbc2] at habv
        simp [hv] at habv
      · have : bytesLtb (strBytes b.2) (strBytes a.2) = true := bytesLtb_trans _ _ _ hv3 hv
        simp [this] at habv

lemma pairLe_antisymm : ∀ a b : String × String,
    pairLe a b = true → pairLe b a = true → a = b := by
  intro a b hab hba
  simp only [pairLe, Bool.or_eq_true, Bool.and_eq_true, beq_iff_eq,
    Bool.not_eq_true'] at hab hba
  rcases hab with hab | ⟨habk, habv⟩ <;> rcases hba with hba | ⟨hbak, hbav⟩
  · have := bytesLtb_asymm _ _ hab
    simp_all
  · rw [hbak] at hab
    simp [bytesLtb_irrefl] at hab
  · rw [habk] at hba
    simp [bytesLtb_irrefl] at hba
  · have hk : a.1 = b.1 := strBytes_inj habk
    have hv : a.2 = b.2 := strBytes_inj (bytesLtb_conn _ _ hbav habv)
    exact Prod.ext hk hv

instance pairLe.isAntisymm : IsAntisymm (String × String) (fun a b => pairLe a b = true) :=
  ⟨pairLe_antisymm⟩

/-- Sorting two permuted parameter sets with the spec's comparison yields
the same list. -/
lemma mergeSort_pairLe_perm_eq {ps qs : List (String × String)} (h : ps.Perm qs) :
    ps.mergeSort pairLe = qs.mergeSort pairLe := by
  apply List.eq_of_perm_of_sorted (r := fun a b => pairLe a b = true)
  · exact ((ps.mergeSort_perm pairLe).trans h).trans (qs.mergeSort_perm pairLe).symm
  · exact List.sorted_mergeSort pairLe_trans pairLe_total ps
  · exact List.sorted_mergeSort pairLe_trans pairLe_total qs

/-! ## The signature parameter sets of `twitter_client.rs`

The source builds each `signature_data` string with one hard-coded
`format!` per present/absent combination of the `since`/`until` window.
Each branch is transliterated here as its ordered key/value list; joining
the list with `&` reproduces the `format!` string verbatim.  The
`since`/`until` arguments below are the already-suffixed date-times (the
source mutates the options before this point), and the date values are
inserted percent-encoded, the other values raw, exactly as in the source. -/

/-- One `key=value` pair per parameter, joined with `&` — the shape of
every `signature_data` string in the source. -/
def joinPairs (ps : List (String × String)) : String :=
  String.intercalate "&" (ps.map fun p => p.1 ++ "=" ++ p.2)

/-- Parameter set of `count_tweets`' signature data
(`twitter_client.rs` lines 262-315). -/
def countParams (ck nonce ts tok : String) :
    Option String → Option String → List (String × String)
  | some s, some u =>
      [("end_time", encodeStr u), ("oauth_consumer_key", ck), ("oauth_nonce", nonce),
        ("oauth_signature_method", "HMAC-SHA1"), ("oauth_timestamp", ts),
        ("oauth_token", tok), ("oauth_version", "1.0"), ("start_time", encodeStr s)]
  | some s, none =>
      [("oauth_consumer_key", ck), ("oauth_nonce", nonce),
        ("oauth_signature_method", "HMAC-SHA1"), ("oauth_timestamp", ts),
        ("oauth_token", tok), ("oauth_version", "1.0"), ("start_time", encodeStr s)]
  | none, some u =>
      [("end_time", encodeStr u), ("oauth_consumer_key", ck), ("oauth_nonce", nonce),
        ("oauth_signature_method", "HMAC-SHA1"), ("oauth_timestamp", ts),
        ("oauth_token", tok), ("oauth_version", "1.0")]
  | none, none =>
      [("oauth_consumer_key", ck), ("oauth_nonce", nonce),
        ("oauth_signature_method", "HMAC-SHA1"), ("oauth_timestamp", ts),
        ("oauth_token", tok), ("oauth_version", "1.0")]

/-- Parameter set of `fetch_timeline`'s signature data
(`twitter_client.rs` lines 422-475).  The `tweet.fields` value appears
pre-encoded in the source text. -/
def fetchParams (ck nonce ts tok : String) :
    Option String → Option String → List (String × String)
  | some s, some u =>
      [("end_time", encodeStr u), ("max_results", "100"), ("oauth_consumer_key", ck),
        ("oauth_nonce", nonce), ("oauth_signature_method", "HMAC-SHA1"),
        ("oauth_timestamp", ts), ("oauth_token", tok), ("oauth_version", "1.0"),
        ("start_time", encodeStr s),
        ("tweet.fields", "created_at%2Cpublic_metrics%2Cattachments")]
  | some s, none =>
      [("max_results", "100"), ("oauth_consumer_key", ck), ("oauth_nonce", nonce),
        ("oauth_signature_method", "HMAC-SHA1"), ("oauth_timestamp", ts),
        ("oauth_token", tok), ("oauth_version", "1.0"), ("start_time", encodeStr s),
        ("tweet.fields", "created_at%2Cpublic_metrics%2Cattachments")]
  | none, some u =>
      [("end_time", encodeStr u), ("max_results", "100"), ("oauth_consumer_key", ck),
        ("oauth_nonce", nonce), ("oauth_signature_method", "HMAC-SHA1"),
        ("oauth_timestamp", ts), ("oauth_token", tok), ("oauth_version", "1.0"),
        ("tweet.fields", "created_at%2Cpublic_metrics%2Cattachments")]
  | none, none =>
      [("max_results", "100"), ("oauth_consumer_key", ck), ("oauth_nonce", nonce),
        ("oauth_signature_method", "HMAC-SHA1"), ("oauth_timestamp", ts),
        ("oauth_token", tok), ("oauth_version", "1.0"),
        ("tweet.fields", "created_at%2Cpublic_metrics%2Cattachments")]

/-- Parameter set of `delete_tweet`'s signature data
(`twitter_client.rs` lines 569-577): the six oauth parameters only. -/
def deleteParams (ck nonce ts tok : String) : List (String × String) :=
  [("oauth_consumer_key", ck), ("oauth_nonce", nonce),
    ("oauth_signature_method", "HMAC-SHA1"), ("oauth_timestamp", ts),
    ("oauth_token", tok), ("oauth_version", "1.0")]

/-- The `signature_data` string of `count_tweets`. -/
def countTweetsSignatureData (ck nonce ts tok : String)
    (since untl : Option String) : String :=
  joinPairs (countParams ck nonce ts tok since untl)

/-- The `signature_data` string of `fetch_timeline`. -/
def fetchTimelineSignatureData (ck nonce ts tok : String)
    (since untl : Option String) : String :=
  joinPairs (fetchParams ck nonce ts tok since untl)

/-- The `signature_data` string of `delete_tweet`. -/
def deleteTweetSignatureData (ck nonce ts tok : String) : String :=
  joinPairs (deleteParams ck nonce ts tok)

/-- The `joined_signature_data` of every signed call:
`METHOD&percent-encode(url)&percent-encode(signature_data)`. -/
def joinedSignatureData (method url sigData : String) : String :=
  method ++ "&" ++ encodeStr url ++ "&" ++ encodeStr sigData

/-- Modelled from the spec: §4.1 steps 3-4 — sort the parameter set by key
in byte/lexicographic order, ties broken by value, then join as
`key=value` pairs with `&`.  The source hard-codes already-sorted strings;
this definition is the sorting spec they are compared against. -/
def specSortedParamString (ps : List (String × String)) : String :=
  joinPairs (ps.mergeSort pairLe)

/-- Modelled from the spec: §4.1 step 5 — the signature base string over a
sorted parameter set. -/
def specSignatureBase (method url : String) (ps : List (String × String)) : String :=
  method ++ "&" ++ encodeStr url ++ "&" ++ encodeStr (specSortedParamString ps)

lemma chain_keyLt_pairwise {l : List (String × String)}
    (h : List.Chain' keyLt (l.map Prod.fst)) :
    List.Pairwise (fun a b => pairLe a b = true) l := by
  have hp : List.Pairwise keyLt (l.map Prod.fst) := List.chain'_iff_pairwise.mp h
  rw [List.pairwise_map] at hp
  refine hp.imp fun hk => ?_
  simp only [pairLe, Bool.or_eq_true]
  exact Or.inl hk

lemma pairwise_sorted_join {l : List (String × String)}
    (h : List.Chain' keyLt (l.map Prod.fst)) :
    specSortedParamString l = joinPairs l := by
  unfold specSortedParamString
  rw [List.mergeSort_of_sorted (chain_keyLt_pairwise h)]

lemma countParams_keys_sorted (ck nonce ts tok : String)
    (since untl : Option String) :
    List.Chain' keyLt ((countParams ck nonce ts tok since untl).map Prod.fst) := by
  rcases since <;> rcases untl <;>
    simp only [countParams, List.map, List.chain'_cons, List.chain'_singleton,
      and_true] <;> decide

lemma fetchParams_keys_sorted (ck nonce ts tok : String)
    (since untl : Option String) :
    List.Chain' keyLt ((fetchParams ck nonce ts tok since untl).map Prod.fst) := by
  rcases since <;> rcases untl <;>
    simp only [fetchParams, List.map, List.chain'_cons, List.chain'_singleton,
      and_true] <;> decide

/-- **C2.** For every present/absent combination of `since` and `until`,
the keys of the signature parameter set of `count_tweets` and of
`fetch_timeline` (endpoint parameters plus the six fixed `oauth_*`
parameters) are in strictly ascending byte/lexicographic order; sorting
any two parameter sets that differ only in insertion order produces the
identical signature base string; and on its own parameter sets the
spec's sort-then-join reproduces exactly the `signature_data` string the
source hard-codes. -/
theorem c2_parameter_order :
    (∀ ck nonce ts tok since untl,
        List.Chain' keyLt ((countParams ck nonce ts tok since untl).map Prod.fst) ∧
        List.Chain' keyLt ((fetchParams ck nonce ts tok since untl).map Prod.fst)) ∧
      (∀ (method url : String) (ps qs : List (String × String)), ps.Perm qs →
        specSignatureBase method url ps = specSignatureBase method url qs) ∧
      (∀ ck nonce ts tok since untl,
        specSortedParamString (countParams ck nonce ts tok since untl) =
          countTweetsSignatureData ck nonce ts tok since untl ∧
        specSortedParamString (fetchParams ck nonce ts tok since untl) =
          fetchTimelineSignatureData ck nonce ts tok since untl) := by
  refine ⟨fun ck nonce ts tok since untl =>
      ⟨countParams_keys_sorted ck nonce ts tok since untl,
        fetchParams_keys_sorted ck nonce ts tok since untl⟩, ?_, ?_⟩
  · intro method url ps qs h
    unfold specSignatureBase specSortedParamString
    rw [mergeSort_pairLe_perm_eq h]
  · intro ck nonce ts tok since untl
    exact ⟨pairwise_sorted_join (countParams_keys_sorted ck nonce ts tok since untl),
      pairwise_sorted_join (fetchParams_keys_sorted ck nonce ts tok since untl)⟩

/-- **C2 (witness).** The order-independence part evaluated on a concrete
two-element parameter set presented in two insertion orders. -/
theorem c2_parameter_order_witness :
    specSignatureBase "GET" "https://api.twitter.com/2/tweets/counts/all"
        [("start_time", "2022"), ("end_time", "2023")] =
      specSignatureBase "GET" "https://api.twitter.com/2/tweets/counts/all"
        [("end_time", "2023"), ("start_time", "2022")] :=
  c2_parameter_order.2.1 "GET" "https://api.twitter.com/2/tweets/counts/all"
    [("start_time", "2022"), ("end_time", "2023")]
    [("end_time", "2023"), ("start_time", "2022")] (by decide)

/-! ## The signing pipeline of each authenticated call

`count_tweets`, `fetch_timeline` and `delete_tweet` each build, with the
same sequence of steps: the signing key (`signagure_key` in the source),
the `joined_signature_data` base string, the HMAC-SHA1 digest, its base64
rendering, and the percent-encoded `oauth_signature` placed in the
`OAuth ...` header.  HMAC-SHA1 and base64 live in external crates
(`hmacsha1`, `base64`); they are universally quantified function
parameters here, since the claims concern how the source composes them. -/

/-- The signing key (the source's `signagure_key`, spelling kept):
`percent-encode(consumer_secret)&percent-encode(oauth_token_secret)`. -/
def signagureKey (consumerSecret oauthTokenSecret : String) : String :=
  encodeStr consumerSecret ++ "&" ++ encodeStr oauthTokenSecret

/-- Target URL of `count_tweets` (server joined with the endpoint path). -/
def countTweetsUrl (server : String) : String :=
  server ++ "2/tweets/counts/all"

/-- Target URL of `fetch_timeline`. -/
def fetchTimelineUrl (server userId : String) : String :=
  server ++ "2/users/" ++ userId ++ "/tweets"

/-- Target URL of `delete_tweet`. -/
def deleteTweetUrl (server tweetId : String) : String :=
  server ++ "1.1/statuses/destroy/" ++ tweetId ++ ".json"

/-- The percent-encoded signature a call emits
(`encoded_signature` in the source): HMAC-SHA1 of the base string under
the signing key, base64-encoded, then percent-encoded. -/
def encodedSignature (hmacSha1 : List Nat → List Nat → List Nat)
    (base64Encode : List Nat → String) (key base : String) : String :=
  encodeStr (base64Encode (hmacSha1 (strBytes key) (strBytes base)))

/-- The `OAuth ...` Authorization header value each signed call sets
(same `format!` in all three calls). -/
def oauthHeader (ck nonce sig ts tok : String) : String :=
  "OAuth oauth_consumer_key=" ++ ck ++ ",oauth_nonce=" ++ nonce ++
    ",oauth_signature=" ++ sig ++ ",oauth_signature_method=HMAC-SHA1" ++
    ",oauth_timestamp=" ++ ts ++ ",oauth_token=" ++ tok ++ ",oauth_version=1.0"

/-- The Authorization header `count_tweets` emits
(`twitter_client.rs` lines 318-344). -/
def countTweetsAuthHeader (hmacSha1 : List Nat → List Nat → List Nat)
    (base64Encode : List Nat → String)
    (server cs tokenSecret ck nonce ts tok : String)
    (since untl : Option String) : String :=
  oauthHeader ck nonce
    (encodedSignature hmacSha1 base64Encode (signagureKey cs tokenSecret)
      (joinedSignatureData "GET" (countTweetsUrl server)
        (countTweetsSignatureData ck nonce ts tok since untl)))
    ts tok

/-- The Authorization header `fetch_timeline` emits
(`twitter_client.rs` lines 477-506). -/
def fetchTimelineAuthHeader (hmacSha1 : List Nat → List Nat → List Nat)
    (base64Encode : List Nat → String)
    (server userId cs tokenSecret ck nonce ts tok : String)
    (since untl : Option String) : String :=
  oauthHeader ck nonce
    (encodedSignature hmacSha1 base64Encode (signagureKey cs tokenSecret)
      (joinedSignatureData "GET" (fetchTimelineUrl server userId)
        (fetchTimelineSignatureData ck nonce ts tok since untl)))
    ts tok

/-- The Authorization header `delete_tweet` emits
(`twitter_client.rs` lines 579-606). -/
def deleteTweetAuthHeader (hmacSha1 : List Nat → List Nat → List Nat)
    (base64Encode : List Nat → String)
    (server tweetId cs tokenSecret ck nonce ts tok : String) : String :=
  oauthHeader ck nonce
    (encodedSignature hmacSha1 base64Encode (signagureKey cs tokenSecret)
      (joinedSignatureData "POST" (deleteTweetUrl server tweetId)
        (deleteTweetSignatureData ck nonce ts tok)))
    ts tok

/-- Modelled from the spec: §4.1 steps 5-7 — base string
`METHOD&percent-encode(url)&percent-encode(parameterString)`, signing key
`percent-encode(consumerSecret)&percent-encode(oauthTokenSecret)`, and
`oauth_signature = percent-encode(base64(HMAC-SHA1(key, base)))`. -/
def specOauthSignature (hmacSha1 : List Nat → List Nat → List Nat)
    (base64Encode : List Nat → String)
    (consumerSecret oauthTokenSecret method url paramString : String) : String :=
  encodeStr (base64Encode (hmacSha1
    (strBytes (encodeStr consumerSecret ++ "&" ++ encodeStr oauthTokenSecret))
    (strBytes (method ++ "&" ++ encodeStr url ++ "&" ++ encodeStr paramString))))

/-- **C3.** For every signed call (`delete_tweet`, `fetch_timeline`,
`count_tweets`) and any HMAC-SHA1 and base64 functions, the
`oauth_signature` emitted inside the `OAuth` header equals
`percent-encode(base64(HMAC-SHA1(key, base)))`, with
`base = METHOD&percent-encode(url)&percent-encode(parameterString)` and
`key = percent-encode(consumerSecret)&percent-encode(oauthTokenSecret)`. -/
theorem c3_signature_composition
    (hmacSha1 : List Nat → List Nat → List Nat)
    (base64Encode : List Nat → String)
    (server userId tweetId cs tokenSecret ck nonce ts tok : String)
    (since untl : Option String) :
    deleteTweetAuthHeader hmacSha1 base64Encode server tweetId cs tokenSecret
        ck nonce ts tok =
      oauthHeader ck nonce
        (specOauthSignature hmacSha1 base64Encode cs tokenSecret "POST"
          (deleteTweetUrl server tweetId) (deleteTweetSignatureData ck nonce ts tok))
        ts tok ∧
      countTweetsAuthHeader hmacSha1 base64Encode server cs tokenSecret
          ck nonce ts tok since untl =
        oauthHeader ck nonce
          (specOauthSignature hmacSha1 base64Encode cs tokenSecret "GET"
            (countTweetsUrl server)
            (countTweetsSignatureData ck nonce ts tok since untl))
          ts tok ∧
      fetchTimelineAuthHeader hmacSha1 base64Encode server userId cs tokenSecret
          ck nonce ts tok since untl =
        oauthHeader ck nonce
          (specOauthSignature hmacSha1 base64Encode cs tokenSecret "GET"
            (fetchTimelineUrl server userId)
            (fetchTimelineSignatureData ck nonce ts tok since untl))
          ts tok :=
  ⟨rfl, rfl, rfl⟩

/-! ## The deletion / unlike pipeline of `dta_app.rs`

`delete_tweets` and `unlike_likes` loop: fetch a batch, stop with `Ok(())`
when the fetch errs or returns an empty batch, otherwise act on each item
in returned order, then refetch.  The client is embedded as a script: the
list of successive fetch outcomes (`none` = fetch error, `some ids` = a
batch), plus a per-id action outcome.  `PipeResult.done` is the source's
`Ok(())`, `PipeResult.aborted id` its
`Err(anyhow!("Delete was failed with {:?}", id))`, and
`PipeResult.pending` marks a run that consumed the whole script without
reaching a stopping condition (the source loop would fetch again). -/

/-- Outcome of a pipeline run. -/
inductive PipeResult
  | done
  | aborted (id : String)
  | pending
  deriving DecidableEq

/-- The per-item loop of `delete_tweets` (`dta_app.rs` lines 57-70):
delete items in order, stopping at the first failure.  Returns the id the
run aborts on (if any) and the list of items on which a delete action was
actually performed. -/
def actUntilFail (deleteOk : String → Bool) : List String → Option String × List String
  | [] => (none, [])
  | id :: rest =>
    if deleteOk id then
      let r := actUntilFail deleteOk rest
      (r.1, id :: r.2)
    else (some id, [id])

/-- The `delete_tweets` loop (`dta_app.rs` lines 37-73) over a fetch
script.  Returns the run result, the items acted on in order, and the
number of fetch calls made. -/
def deleteRun (deleteOk : String → Bool) :
    List (Option (List String)) → PipeResult × List String × Nat
  | [] => (.pending, [], 0)
  | none :: _ => (.done, [], 1)
  | some batch :: rest =>
    if batch.isEmpty then (.done, [], 1)
    else
      match actUntilFail deleteOk batch with
      | (some failedId, attempted) => (.aborted failedId, attempted, 1)
      | (none, attempted) =>
        let r := deleteRun deleteOk rest
        (r.1, attempted ++ r.2.1, r.2.2 + 1)

/-- The per-item loop of `unlike_likes` (`dta_app.rs` lines 182-201): the
unlike action is attempted on every item of the batch; its outcome only
selects the log line.  The trace records each attempted id with the
outcome of its action. -/
def unlikeAttempts (deleteLikedOk : String → Bool) (batch : List String) :
    List (String × Bool) :=
  batch.map fun id => (id, deleteLikedOk id)

/-- The `unlike_likes` loop (`dta_app.rs` lines 162-204) over a fetch
script. -/
def unlikeRun (deleteLikedOk : String → Bool) :
    List (Option (List String)) → PipeResult × List (String × Bool) × Nat
  | [] => (.pending, [], 0)
  | none :: _ => (.done, [], 1)
  | some batch :: rest =>
    if batch.isEmpty then (.done, [], 1)
    else
      let r := unlikeRun deleteLikedOk rest
      (r.1, unlikeAttempts deleteLikedOk batch ++ r.2.1, r.2.2 + 1)

lemma actUntilFail_fail (deleteOk : String → Bool) (x : String) (suf : List String)
    (hx : deleteOk x = false) :
    ∀ pre, (∀ y ∈ pre, deleteOk y = true) →
      actUntilFail deleteOk (pre ++ x :: suf) = (some x, pre ++ [x])
  | [], _ => by simp [actUntilFail, hx]
  | y :: pre, hpre => by
    have hy : deleteOk y = true := hpre y (List.mem_cons_self y pre)
    have ih := actUntilFail_fail deleteOk x suf hx pre
      fun z hz => hpre z (List.mem_cons_of_mem y hz)
    simp [actUntilFail, hy, ih]

/-- **C4.** If a fetch returns the batch `pre ++ x :: suf` and the delete
action succeeds on every item of `pre` but fails on `x`, then
`delete_tweets` aborts carrying exactly the id `x` (the source formats it
into `Err(anyhow!("Delete was failed with {:?}", id))`), the items acted
on are exactly `pre ++ [x]` — nothing after `x` in the batch is touched —
and no further fetch happens. -/
theorem c4_delete_aborts_on_failure (deleteOk : String → Bool)
    (pre : List String) (x : String) (suf : List String)
    (rest : List (Option (List String)))
    (hpre : ∀ y ∈ pre, deleteOk y = true) (hx : deleteOk x = false) :
    deleteRun deleteOk (some (pre ++ x :: suf) :: rest) =
      (.aborted x, pre ++ [x], 1) := by
  have hne : (pre ++ x :: suf).isEmpty = false := by
    rcases pre <;> simp
  simp only [deleteRun, hne, Bool.false_eq_true, if_false,
    actUntilFail_fail deleteOk x suf hx pre hpre]

/-- **C4 (witness).** A concrete three-item batch whose delete action
fails on the middle item: the run aborts with id `"2"`, acts on `"1"` and
`"2"` only, and fetches once. -/
theorem c4_delete_aborts_on_failure_witness :
    deleteRun (fun id => id != "2") (some ["1", "2", "3"] :: []) =
      (.aborted "2", ["1", "2"], 1) :=
  c4_delete_aborts_on_failure (fun id => id != "2") ["1"] "2" ["3"] []
    (by decide) (by decide)

lemma unlikeRun_ne_aborted (deleteLikedOk : String → Bool) :
    ∀ (script : List (Option (List String))) (e : String),
      (unlikeRun deleteLikedOk script).1 ≠ .aborted e
  | [], e => by simp [unlikeRun]
  | none :: _, e => by simp [unlikeRun]
  | some batch :: rest, e => by
    rcases hb : batch.isEmpty <;>
      simp [unlikeRun, hb, unlikeRun_ne_aborted deleteLikedOk rest e]

lemma unlikeRun_fst_indep (deleteLikedOk deleteLikedOk' : String → Bool) :
    ∀ script : List (Option (List String)),
      (unlikeRun deleteLikedOk script).1 = (unlikeRun deleteLikedOk' script).1
  | [] => rfl
  | none :: _ => rfl
  | some batch :: rest => by
    rcases hb : batch.isEmpty <;>
      simp [unlikeRun, hb, unlikeRun_fst_indep deleteLikedOk deleteLikedOk' rest]

/-- **C5.** When a fetch returns a non-empty batch, `unlike_likes`
attempts the unlike action on every item of the batch in returned order —
a per-item failure is only logged, the loop continues past it — the run
result never carries a per-item error, and the result is independent of
which items fail. -/
theorem c5_unlike_continues (deleteLikedOk : String → Bool)
    (batch : List String) (rest : List (Option (List String)))
    (hne : batch ≠ []) :
    (unlikeRun deleteLikedOk (some batch :: rest)).2.1 =
        batch.map (fun id => (id, deleteLikedOk id)) ++
          (unlikeRun deleteLikedOk rest).2.1 ∧
      (∀ e, (unlikeRun deleteLikedOk (some batch :: rest)).1 ≠ .aborted e) ∧
      (∀ deleteLikedOk' : String → Bool,
        (unlikeRun deleteLikedOk (some batch :: rest)).1 =
          (unlikeRun deleteLikedOk' (some batch :: rest)).1) := by
  have hb : batch.isEmpty = false := by
    rcases batch with _ | _
    · exact absurd rfl hne
    · rfl
  refine ⟨?_, fun e => unlikeRun_ne_aborted deleteLikedOk _ e,
    fun ok' => unlikeRun_fst_indep deleteLikedOk ok' _⟩
  simp [unlikeRun, hb, unlikeAttempts]

/-- **C5 (witness).** A concrete two-item batch whose unlike action fails
on the first item: both items are attempted in order and the run ends
`done` (the script's second fetch returns an error). -/
theorem c5_unlike_continues_witness :
    (unlikeRun (fun id => id != "1") (some ["1", "2"] :: [none])).2.1 =
        [("1", false), ("2", true)] ++
          (unlikeRun (fun id => id != "1") [none]).2.1 ∧
      (∀ e, (unlikeRun (fun id => id != "1") (some ["1", "2"] :: [none])).1 ≠
        .aborted e) ∧
      (∀ ok' : String → Bool,
        (unlikeRun (fun id => id != "1") (some ["1", "2"] :: [none])).1 =
          (unlikeRun ok' (some ["1", "2"] :: [none])).1) :=
  c5_unlike_continues (fun id => id != "1") ["1", "2"] [none] (by decide)

/-- **C6.** When the first fetch errs (`none`) or returns an empty batch,
both `delete_tweets` and `unlike_likes` stop after exactly one fetch
call, act on no item, and return success (`Ok(())`, i.e. `done`). -/
theorem c6_first_fetch_ends_run (deleteOk deleteLikedOk : String → Bool)
    (rest : List (Option (List String))) :
    deleteRun deleteOk (none :: rest) = (.done, [], 1) ∧
      deleteRun deleteOk (some [] :: rest) = (.done, [], 1) ∧
      unlikeRun deleteLikedOk (none :: rest) = (.done, [], 1) ∧
      unlikeRun deleteLikedOk (some [] :: rest) = (.done, [], 1) :=
  ⟨rfl, rfl, rfl, rfl⟩

/-! ## The login exchange of `twitter_client.rs`

`login` (lines 110-220) reads the username line from stdin, looks the user
up with a Bearer header, requests a temporary token with a Bearer header,
shows the authorize URL, reads the PIN line, and POSTs the access-token
exchange.  Each outgoing request is embedded as method, URL and optional
Authorization header value.  `Url::join` against the server base URL is
modelled as string concatenation (the base URL ends in `/`). -/

/-- An outgoing HTTP request of the login exchange. -/
structure HttpRequest where
  method : String
  url : String
  authorization : Option String
  deriving DecidableEq

/-- The user-lookup request (`twitter_client.rs` lines 117-127): GET with
Bearer auth, username trimmed into the path. -/
def loginLivenessRequest (server usernameLine apiKey : String) : HttpRequest :=
  { method := "GET"
    url := server ++ "2/users/by/username/" ++ usernameLine.trim
    authorization := some ("Bearer " ++ apiKey) }

/-- The request-token request (`twitter_client.rs` lines 140-151): POST
with Bearer auth. -/
def loginRequestTokenRequest (server consumerKey apiKey : String) : HttpRequest :=
  { method := "POST"
    url := server ++ "oauth/request_token?oauth_consumer_key=" ++ consumerKey ++
      "&oauth_callback=oob"
    authorization := some ("Bearer " ++ apiKey) }

/-- The access-token exchange request (`twitter_client.rs` lines 181-189):
the POST that trades the verifier for the final token pair.  The source
calls `.request_url("POST", ...).call()` with no `.set("Authorization",
...)` — the request carries no Authorization header and no signature. -/
def loginAccessTokenRequest (server requestToken verifier : String) : HttpRequest :=
  { method := "POST"
    url := server ++ "oauth/access_token?oauth_token=" ++ requestToken ++
      "&oauth_verifier=" ++ verifier
    authorization := none }

/-- The three requests `login` issues, in order. -/
def loginRequests (server usernameLine apiKey consumerKey requestToken
    verifier : String) : List HttpRequest :=
  [loginLivenessRequest server usernameLine apiKey,
    loginRequestTokenRequest server consumerKey apiKey,
    loginAccessTokenRequest server requestToken verifier]

/-- **C7 (counterexample).** At concrete inputs, the access-token exchange
request is issued with no Authorization header at all — in particular it
carries no 1.0a signature. -/
theorem c7_access_token_unsigned_counterexample :
    (loginAccessTokenRequest "https://api.twitter.com/" "tmpA" "000000").authorization
        = none ∧
      (loginAccessTokenRequest "https://api.twitter.com/" "tmpA"
        "000000").authorization.isSome = false :=
  ⟨rfl, rfl⟩

/-- **C7 (amended).** The access-token exchange request passes the
temporary request token and the verifier as query parameters but is sent
unauthenticated: no Authorization header — neither a 1.0a signature nor
even the Bearer header the two earlier login steps carry. -/
theorem c7_access_token_request_auth (server usernameLine apiKey consumerKey
    requestToken verifier : String) :
    (loginAccessTokenRequest server requestToken verifier).authorization = none ∧
      (loginAccessTokenRequest server requestToken verifier).url =
        server ++ "oauth/access_token?oauth_token=" ++ requestToken ++
          "&oauth_verifier=" ++ verifier ∧
      (loginRequests server usernameLine apiKey consumerKey requestToken
          verifier).map HttpRequest.authorization =
        [some ("Bearer " ++ apiKey), some ("Bearer " ++ apiKey), none] :=
  ⟨rfl, rfl, rfl⟩

/-! ## Parsing the token responses and building the credential -/

/-- Splitting on a separator character, as Rust's `str::split`:
`"a&b" → ["a","b"]`, `"" → [""]`, `"&" → ["",""]`. -/
def splitOnChar (sep : Char) : List Char → List (List Char)
  | [] => [[]]
  | c :: rest =>
    let r := splitOnChar sep rest
    if c = sep then [] :: r
    else
      match r with
      | [] => [[c]]
      | g :: gs => (c :: g) :: gs

/-- The token-response parsing of `login` (`twitter_client.rs` lines
192-198): split the body on `&`, split each piece on `=`, and keep the
first two fragments as key and value.  (A piece without `=` would make
the source panic on index `[1]`; such pieces do not occur in the claims'
responses.) -/
def parseTokenResponse (resp : String) : List (String × String) :=
  (splitOnChar (Char.ofNat 38) resp.data).filterMap fun each =>
    match splitOnChar (Char.ofNat 61) each with
    | k :: v :: _ => some (⟨k⟩, ⟨v⟩)
    | _ => none

/-- `HashMap` lookup after inserting every parsed pair in order: the last
pair with the key wins. -/
def lookupKey (pairs : List (String × String)) (k : String) : Option String :=
  (pairs.reverse.find? fun p => p.1 == k).map (·.2)

/-- The user credential produced at the end of `login`
(`twitter_client.rs` lines 202-212): the id from the lookup, the token and
secret from the parsed access-token response, and the username field set
to the raw line read from stdin — the source trims the line for the
lookup URL but stores it untrimmed. -/
structure TwitterAppUserCredential where
  username : String
  id : String
  oauth_token : String
  oauth_token_secret : String
  deriving DecidableEq

/-- `login`'s credential construction as a function of the raw stdin line,
the looked-up user id, and the access-token response body.  `none` models
the source's `unwrap` panic when a token field is absent. -/
def loginUserCred (usernameLine userId accessTokenResponse : String) :
    Option TwitterAppUserCredential :=
  match lookupKey (parseTokenResponse accessTokenResponse) "oauth_token",
      lookupKey (parseTokenResponse accessTokenResponse) "oauth_token_secret" with
  | some t, some s =>
      some { username := usernameLine, id := userId,
             oauth_token := t, oauth_token_secret := s }
  | _, _ => none

/-- **C8 (counterexample).** When the operator types `alice` and presses
return, stdin's `read_line` delivers `"alice\n"`; with lookup id `"123"`
and access-token response `oauth_token=finalB&oauth_token_secret=secC`,
the credential's username field is `"alice\n"` — not `"alice"` as the
claim states (only the lookup URL uses the trimmed name). -/
theorem c8_username_newline_counterexample :
    loginUserCred "alice\n" "123" "oauth_token=finalB&oauth_token_secret=secC" =
        some { username := "alice\n", id := "123",
               oauth_token := "finalB", oauth_token_secret := "secC" } ∧
      ("alice\n" : String) ≠ "alice" := by
  refine ⟨by decide, by decide⟩

/-- **C8 (amended).** For every login run, the returned credential carries
the looked-up id, the `oauth_token` and `oauth_token_secret` parsed from
the access-token response — and as username the raw stdin line including
its trailing newline (so `"alice\n"`, not `"alice"`, when the operator
enters `alice`). -/
theorem c8_login_credential (usernameLine userId resp t s : String)
    (ht : lookupKey (parseTokenResponse resp) "oauth_token" = some t)
    (hs : lookupKey (parseTokenResponse resp) "oauth_token_secret" = some s) :
    loginUserCred usernameLine userId resp =
      some { username := usernameLine, id := userId,
             oauth_token := t, oauth_token_secret := s } := by
  unfold loginUserCred
  rw [ht, hs]

/-- **C8 (witness).** The amended theorem applied to the scenario of the
claim: raw line `"alice\n"`, id `"123"`, response
`oauth_token=finalB&oauth_token_secret=secC`. -/
theorem c8_login_credential_witness :
    loginUserCred "alice\n" "123" "oauth_token=finalB&oauth_token_secret=secC" =
      some { username := "alice\n", id := "123",
             oauth_token := "finalB", oauth_token_secret := "secC" } :=
  c8_login_credential "alice\n" "123" "oauth_token=finalB&oauth_token_secret=secC"
    "finalB" "secC" (by decide) (by decide)

/-! ## Authenticated calls with no loaded credential

Each of `count_tweets` (lines 240-241), `fetch_timeline` (lines 397-398)
and `delete_tweet` (lines 546-547) begins with
`self.user_cred.as_ref().unwrap()`.  On a client whose credential is
absent, `unwrap` on `None` is a Rust panic — the process aborts; no error
value is constructed or returned.  The outcome type below also has an
`errorReturn` constructor so the claimed behaviour is expressible; no
source path produces it. -/

/-- How an authenticated call starts, as a function of the loaded
credential. -/
inductive AuthCallOutcome
  | panicked
  | signed (oauth_token oauth_token_secret : String)
  | errorReturn (kind : String)
  deriving DecidableEq

/-- Credential prologue of `count_tweets`. -/
def countTweetsCredStep : Option TwitterAppUserCredential → AuthCallOutcome
  | none => .panicked
  | some c => .signed c.oauth_token c.oauth_token_secret

/-- Credential prologue of `fetch_timeline`. -/
def fetchTimelineCredStep : Option TwitterAppUserCredential → AuthCallOutcome
  | none => .panicked
  | some c => .signed c.oauth_token c.oauth_token_secret

/-- Credential prologue of `delete_tweet`. -/
def deleteTweetCredStep : Option TwitterAppUserCredential → AuthCallOutcome
  | none => .panicked
  | some c => .signed c.oauth_token c.oauth_token_secret

/-- **C9 (counterexample).** With no loaded credential, each of the three
authenticated calls panics; in particular none of them returns a
`SigningPrerequisiteMissing` error to the caller. -/
theorem c9_no_credential_panics_counterexample :
    countTweetsCredStep none = .panicked ∧
      fetchTimelineCredStep none = .panicked ∧
      deleteTweetCredStep none = .panicked ∧
      countTweetsCredStep none ≠ .errorReturn "SigningPrerequisiteMissing" ∧
      fetchTimelineCredStep none ≠ .errorReturn "SigningPrerequisiteMissing" ∧
      deleteTweetCredStep none ≠ .errorReturn "SigningPrerequisiteMissing" := by
  refine ⟨rfl, rfl, rfl, by decide, by decide, by decide⟩

/-- **C9 (amended).** An authenticated call on a client with no loaded
user credential aborts the process with a panic (`unwrap` on `None`); it
neither proceeds to a signed request nor returns an error value of any
kind to the caller. -/
theorem c9_no_credential_panics (kind oauth_token oauth_token_secret : String) :
    (countTweetsCredStep none = .panicked ∧
        countTweetsCredStep none ≠ .errorReturn kind ∧
        countTweetsCredStep none ≠ .signed oauth_token oauth_token_secret) ∧
      (fetchTimelineCredStep none = .panicked ∧
        fetchTimelineCredStep none ≠ .errorReturn kind ∧
        fetchTimelineCredStep none ≠ .signed oauth_token oauth_token_secret) ∧
      (deleteTweetCredStep none = .panicked ∧
        deleteTweetCredStep none ≠ .errorReturn kind ∧
        deleteTweetCredStep none ≠ .signed oauth_token oauth_token_secret) := by
  refine ⟨⟨rfl, ?_, ?_⟩, ⟨rfl, ?_, ?_⟩, ⟨rfl, ?_, ?_⟩⟩ <;> intro h <;>
    simp [countTweetsCredStep, fetchTimelineCredStep, deleteTweetCredStep] at h

/-! ## The since/until window of `count_tweets` and `fetch_timeline`

Both calls first append `T00:00:00Z` to each present date option
(`twitter_client.rs` lines 226-237 and 383-394), then place the value
percent-encoded into `signature_data` and raw into the wire query
(`.query("end_time", ...)`, `.query("start_time", ...)`, lines 345-355
and 507-517). -/

/-- The date mutation both calls apply before signing. -/
def dateSuffix : Option String → Option String
  | some d => some (d ++ "T00:00:00Z")
  | none => none

/-- The signature parameter set of `count_tweets` as a function of the
original `since`/`until` arguments. -/
def countTweetsSigParams (ck nonce ts tok : String)
    (since untl : Option String) : List (String × String) :=
  countParams ck nonce ts tok (dateSuffix since) (dateSuffix untl)

/-- The signature parameter set of `fetch_timeline` as a function of the
original `since`/`until` arguments. -/
def fetchTimelineSigParams (ck nonce ts tok : String)
    (since untl : Option String) : List (String × String) :=
  fetchParams ck nonce ts tok (dateSuffix since) (dateSuffix untl)

/-- The wire query parameters `count_tweets` attaches. -/
def countTweetsWireQuery (since untl : Option String) : List (String × String) :=
  match dateSuffix since, dateSuffix untl with
  | some s, some u => [("end_time", u), ("start_time", s)]
  | some s, none => [("start_time", s)]
  | none, some u => [("end_time", u)]
  | none, none => []

/-- The wire query parameters `fetch_timeline` attaches. -/
def fetchTimelineWireQuery (since untl : Option String) : List (String × String) :=
  [("max_results", "100"), ("tweet.fields", "created_at,public_metrics,attachments")]
    ++ countTweetsWireQuery since untl

/-- Value of the first (here: only) pair with the given key. -/
def firstValue (ps : List (String × String)) (k : String) : Option String :=
  (ps.find? fun p => p.1 == k).map (·.2)

/-- **C10 (counterexample).** With `since = some "2022-01-01"`, the value
standing for `start_time` inside the signature parameter string is the
percent-encoded `2022-01-01T00%3A00%3A00Z`, which is not
`2022-01-01T00:00:00Z` (the claim's "exactly d with the suffix appended"),
because the colons of the appended time are encoded there. -/
theorem c10_sig_value_encoded_counterexample :
    firstValue (countTweetsSigParams "ck" "n" "1" "tok" (some "2022-01-01") none)
        "start_time" = some "2022-01-01T00%3A00%3A00Z" ∧
      ("2022-01-01T00%3A00%3A00Z" : String) ≠ "2022-01-01T00:00:00Z" := by
  refine ⟨by decide, by decide⟩

/-- **C10 (amended).** For both calls and either window bound: when the
option is `some d`, the wire query carries exactly `d ++ "T00:00:00Z"`
and the signature parameter string carries the percent-encoding of that
same value; when the option is `none`, the parameter is absent from
both. -/
theorem c10_window_parameters (ck nonce ts tok d : String)
    (since untl : Option String) :
    (firstValue (countTweetsSigParams ck nonce ts tok (some d) untl) "start_time" =
        some (encodeStr (d ++ "T00:00:00Z")) ∧
      firstValue (countTweetsWireQuery (some d) untl) "start_time" =
        some (d ++ "T00:00:00Z") ∧
      firstValue (countTweetsSigParams ck nonce ts tok none untl) "start_time" = none ∧
      firstValue (countTweetsWireQuery none untl) "start_time" = none ∧
      firstValue (countTweetsSigParams ck nonce ts tok since (some d)) "end_time" =
        some (encodeStr (d ++ "T00:00:00Z")) ∧
      firstValue (countTweetsWireQuery since (some d)) "end_time" =
        some (d ++ "T00:00:00Z") ∧
      firstValue (countTweetsSigParams ck nonce ts tok since none) "end_time" = none ∧
      firstValue (countTweetsWireQuery since none) "end_time" = none) ∧
    (firstValue (fetchTimelineSigParams ck nonce ts tok (some d) untl) "start_time" =
        some (encodeStr (d ++ "T00:00:00Z")) ∧
      firstValue (fetchTimelineWireQuery (some d) untl) "start_time" =
        some (d ++ "T00:00:00Z") ∧
      firstValue (fetchTimelineSigParams ck nonce ts tok none untl) "start_time" = none ∧
      firstValue (fetchTimelineWireQuery none untl) "start_time" = none ∧
      firstValue (fetchTimelineSigParams ck nonce ts tok since (some d)) "end_time" =
        some (encodeStr (d ++ "T00:00:00Z")) ∧
      firstValue (fetchTimelineWireQuery since (some d)) "end_time" =
        some (d ++ "T00:00:00Z") ∧
      firstValue (fetchTimelineSigParams ck nonce ts tok since none) "end_time" = none ∧
      firstValue (fetchTimelineWireQuery since none) "end_time" = none) := by
  refine ⟨⟨?_, ?_, ?_, ?_, ?_, ?_, ?_, ?_⟩, ⟨?_, ?_, ?_, ?_, ?_, ?_, ?_, ?_⟩⟩ <;>
    rcases since with _ | s0 <;> rcases untl with _ | u0 <;>
      simp [countTweetsSigParams, fetchTimelineSigParams, countParams,
        fetchParams, dateSuffix, countTweetsWireQuery, fetchTimelineWireQuery,
        firstValue, List.find?]
